import Mathlib

/-!
# Fractionate Edge backend — verification of the model-lifecycle and pipeline spec

Shallow embedding of the core of the Fractionate Edge backend
(`server/main.py`, `server/models.py`, `server/database.py`):

* the streaming chat proxy (`stream_response` in `main.py`),
* the chat history construction (`chat` in `main.py`, `Database.get_messages`),
* the llama-server process supervisor (`LlamaServerManager` in `models.py`),
* the document ingestion pipeline (`upload_document` and helpers in `main.py`,
  `Florence2Manager`, `Database.get_cached_document` / `cache_document`).

External collaborators (httpx, PyMuPDF, PIL, python-docx, the Florence-2
engine, the OS process API, wall-clock time) are modelled as explicit
parameters or small value types; machine floats are modelled as rationals.
-/

namespace EdgeAI

/-! ## Streaming chat proxy (`stream_response`, main.py lines 379-457)

The generator's interaction with the engine is modelled as a list of network
items: each SSE line received (already split into the shapes the code
distinguishes), or an exception raised by the transport at that point of the
stream.  `json.loads` and `dict.get` on a parsed chunk are abstracted into the
`SSELine` shape: a chunk line carries exactly the string
`chunk["choices"][0]["delta"].get("content", "")`. -/

/-- One SSE line from the engine, as discriminated by the source:
`notData` = line not starting with "data: " (skipped);
`doneMarker` = payload "[DONE]" (breaks the loop);
`invalidJson` = payload that fails to parse (skipped);
`chunk content` = parsed chunk whose delta content is `content`
(possibly empty, in which case nothing is emitted). -/
inductive SSELine
  | notData
  | doneMarker
  | invalidJson
  | chunk (content : String)
  deriving DecidableEq, Repr

/-- One item of the engine interaction: a received line, an
`httpx.ConnectError`, or any other exception raised mid-stream. -/
inductive NetItem
  | line (l : SSELine)
  | connectError
  | raised (msg : String)
  deriving DecidableEq, Repr

/-- Stream events of the SSE wire contract (`type` field of each emitted
JSON payload): `start`, `token`, `error`, `done`. `tokensPerSecond` is the
rational emitted in the `done` payload. -/
inductive Ev
  | start (messageId : String)
  | token (content : String)
  | error (content : String)
  | done (messageId : String) (totalTokens : Nat) (tokensPerSecond : ℚ)
  deriving DecidableEq, Repr

/-- Error content emitted on `httpx.ConnectError` (main.py line 423). -/
def lostConnectionMsg : String :=
  "Lost connection to Falcon3-7B. The model may have crashed."

/-- Model of Python `round(x, 1)`: round to one decimal place,
`⌊q * 10 + 1/2⌋ / 10`.  (At exact ties Python rounds the nearest binary
float half-to-even; no tie arises in the statements below.) -/
def roundTo1 (q : ℚ) : ℚ := (⌊q * 10 + 1 / 2⌋ : ℤ) / 10

/-- Accumulated result of the streaming loop body (main.py lines 386-435):
the events yielded after `start`, the accumulated `full_response`,
the `token_count`, and whether an except-branch was taken (in which case the
generator returned after yielding the error event). -/
structure StreamAcc where
  events : List Ev
  full : String
  count : Nat
  failed : Bool
  deriving DecidableEq, Repr

/-- The streaming loop of `stream_response` (main.py lines 386-435), one
step per network item.  Mirrors the source: non-"data: " lines and invalid
JSON are skipped, "[DONE]" breaks, a chunk with non-empty content appends to
the accumulator, increments the counter and yields a token event; a
`ConnectError` or any other exception yields an error event and returns. -/
def runStream : List NetItem → String → Nat → StreamAcc
  | [], acc, cnt => ⟨[], acc, cnt, false⟩
  | NetItem.line SSELine.notData :: rest, acc, cnt => runStream rest acc cnt
  | NetItem.line SSELine.doneMarker :: _, acc, cnt => ⟨[], acc, cnt, false⟩
  | NetItem.line SSELine.invalidJson :: rest, acc, cnt => runStream rest acc cnt
  | NetItem.line (SSELine.chunk c) :: rest, acc, cnt =>
      if c = "" then runStream rest acc cnt
      else
        let r := runStream rest (acc ++ c) (cnt + 1)
        ⟨Ev.token c :: r.events, r.full, r.count, r.failed⟩
  | NetItem.connectError :: _, acc, cnt =>
      ⟨[Ev.error lostConnectionMsg], acc, cnt, true⟩
  | NetItem.raised m :: _, acc, cnt =>
      ⟨[Ev.error ("Error during generation: " ++ m)], acc, cnt, true⟩

/-- `stream_response` (main.py lines 379-455): yields `start`, runs the
streaming loop, and on normal completion computes
`tps = token_count / elapsed if elapsed > 0 else 0` and yields the `done`
event carrying `total_tokens` and `round(tps, 1)`.  `elapsed` is the
wall-clock `time.time() - start_time`, passed in as a rational. -/
def stream_response (msgId : String) (elapsed : ℚ) (items : List NetItem) : List Ev :=
  let r := runStream items "" 0
  if r.failed then
    Ev.start msgId :: r.events
  else
    Ev.start msgId :: r.events ++
      [Ev.done msgId r.count (roundTo1 (if 0 < elapsed then (r.count : ℚ) / elapsed else 0))]

/-- Recognizer for token events. -/
def isTokenEv : Ev → Bool
  | Ev.token _ => true
  | _ => false

/-- Shape of the loop's event output: a run of token events, followed by a
single error event exactly when an except-branch was taken. -/
theorem runStream_shape (items : List NetItem) (acc : String) (cnt : Nat) :
    ∃ ts : List String,
      (if (runStream items acc cnt).failed then
        ∃ s, (runStream items acc cnt).events = ts.map Ev.token ++ [Ev.error s]
      else (runStream items acc cnt).events = ts.map Ev.token) := by
  induction items generalizing acc cnt with
  | nil => exact ⟨[], by simp [runStream]⟩
  | cons hd rest ih =>
    cases hd with
    | line l =>
      cases l with
      | notData => simpa [runStream] using ih acc cnt
      | doneMarker => exact ⟨[], by simp [runStream]⟩
      | invalidJson => simpa [runStream] using ih acc cnt
      | chunk c =>
        by_cases hc : c = ""
        · simpa [runStream, hc] using ih acc cnt
        · obtain ⟨ts, hts⟩ := ih (acc ++ c) (cnt + 1)
          refine ⟨c :: ts, ?_⟩
          by_cases hf : (runStream rest (acc ++ c) (cnt + 1)).failed
          · rw [if_pos hf] at hts
            obtain ⟨s, hs⟩ := hts
            have hfail : (runStream (NetItem.line (SSELine.chunk c) :: rest) acc cnt).failed = true := by
              simp [runStream, hc, hf]
            rw [if_pos hfail]
            exact ⟨s, by simp [runStream, hc, hs, hf]⟩
          · rw [if_neg hf] at hts
            simp [runStream, hc, hf, hts]
    | connectError => exact ⟨[], by simp [runStream]⟩
    | raised m => exact ⟨[], by simp [runStream]⟩

/-- The loop's token counter equals the starting counter plus the number of
token events it yields. -/
theorem runStream_count (items : List NetItem) (acc : String) (cnt : Nat) :
    (runStream items acc cnt).count =
      cnt + (runStream items acc cnt).events.countP isTokenEv := by
  induction items generalizing acc cnt with
  | nil => simp [runStream]
  | cons hd rest ih =>
    cases hd with
    | line l =>
      cases l with
      | notData => simpa [runStream] using ih acc cnt
      | doneMarker => simp [runStream]
      | invalidJson => simpa [runStream] using ih acc cnt
      | chunk c =>
        by_cases hc : c = ""
        · simpa [runStream, hc] using ih acc cnt
        · have h := ih (acc ++ c) (cnt + 1)
          simp only [runStream, if_neg hc]
          simp [List.countP_cons, isTokenEv, h]
          omega
    | connectError => simp [runStream, List.countP_cons, isTokenEv]
    | raised m => simp [runStream, List.countP_cons, isTokenEv]

/-- C1: for every chat invocation that reaches the streaming phase, the
emitted event sequence is exactly one `start` first, then zero or more
`token` events, then a single terminal event — a `done` when the stream
completed normally (no except-branch taken), an `error` otherwise — and
nothing after the terminal event. -/
theorem stream_event_ordering (msgId : String) (elapsed : ℚ) (items : List NetItem) :
    ∃ (ts : List String) (term : Ev),
      stream_response msgId elapsed items = Ev.start msgId :: ts.map Ev.token ++ [term] ∧
      ((∃ s, term = Ev.error s) ∨ ∃ n q, term = Ev.done msgId n q) ∧
      ((runStream items "" 0).failed = true ↔ ∃ s, term = Ev.error s) := by
  obtain ⟨ts, hts⟩ := runStream_shape items "" 0
  by_cases hf : (runStream items "" 0).failed
  · rw [if_pos hf] at hts
    obtain ⟨s, hs⟩ := hts
    refine ⟨ts, Ev.error s, ?_, Or.inl ⟨s, rfl⟩, ?_⟩
    · simp [stream_response, hf, hs]
    · simp [hf]
  · rw [if_neg hf] at hts
    refine ⟨ts, Ev.done msgId (runStream items "" 0).count
      (roundTo1 (if 0 < elapsed then ((runStream items "" 0).count : ℚ) / elapsed else 0)),
      ?_, Or.inr ⟨_, _, rfl⟩, ?_⟩
    · simp [stream_response, hf, hts]
    · simp [hf]

/-- C5 (amended): the `done` event's `total_tokens` equals the number of
`token` events emitted, and its `tokens_per_second` is
`total_tokens / elapsed` (0 when elapsed ≤ 0) **rounded to one decimal
place** — the source applies `round(tps, 1)` before emitting. -/
theorem done_token_accounting (msgId : String) (elapsed : ℚ) (items : List NetItem)
    (mid : String) (n : Nat) (q : ℚ)
    (hmem : Ev.done mid n q ∈ stream_response msgId elapsed items) :
    n = (stream_response msgId elapsed items).countP isTokenEv ∧
    q = roundTo1 (if 0 < elapsed then (n : ℚ) / elapsed else 0) := by
  obtain ⟨ts, hts⟩ := runStream_shape items "" 0
  by_cases hf : (runStream items "" 0).failed
  · rw [if_pos hf] at hts
    obtain ⟨s, hs⟩ := hts
    have hout : stream_response msgId elapsed items =
        Ev.start msgId :: ts.map Ev.token ++ [Ev.error s] := by
      simp [stream_response, hf, hs]
    rw [hout] at hmem
    rcases List.mem_cons.mp hmem with h | h
    · exact Ev.noConfusion h
    · rcases List.mem_append.mp h with h2 | h2
      · obtain ⟨a, _, ha⟩ := List.mem_map.mp h2
        exact Ev.noConfusion ha
      · rcases List.mem_cons.mp h2 with h3 | h3
        · exact Ev.noConfusion h3
        · exact absurd h3 (List.not_mem_nil _)
  · rw [if_neg hf] at hts
    have hout : stream_response msgId elapsed items =
        Ev.start msgId :: ts.map Ev.token ++
          [Ev.done msgId (runStream items "" 0).count
            (roundTo1 (if 0 < elapsed then ((runStream items "" 0).count : ℚ) / elapsed else 0))] := by
      simp [stream_response, hf, hts]
    rw [hout] at hmem
    rcases List.mem_cons.mp hmem with h | h
    · exact Ev.noConfusion h
    · rcases List.mem_append.mp h with h2 | h2
      · obtain ⟨a, _, ha⟩ := List.mem_map.mp h2
        exact Ev.noConfusion ha
      · rcases List.mem_cons.mp h2 with h3 | h3
        · injection h3 with e1 e2 e3
          subst e2
          subst e3
          have hcnt : (runStream items "" 0).count = ts.length := by
            rw [runStream_count items "" 0, hts]
            simp [List.countP_map, Function.comp_def, isTokenEv]
          constructor
          · rw [hout, hcnt]
            simp [List.countP_cons, List.countP_append, List.countP_map,
              Function.comp_def, isTokenEv]
          · rfl
        · exact absurd h3 (List.not_mem_nil _)

/-- Witness for the amended C5 theorem at a concrete two-token stream. -/
theorem done_token_accounting_witness :
    (Ev.done "m" 2 (roundTo1 (if 0 < (2 : ℚ) then ((2 : Nat) : ℚ) / 2 else 0)) ∈
        stream_response "m" 2
          [NetItem.line (SSELine.chunk "a"), NetItem.line (SSELine.chunk "b")]) ∧
      (2 = (stream_response "m" 2
          [NetItem.line (SSELine.chunk "a"), NetItem.line (SSELine.chunk "b")]).countP isTokenEv ∧
        roundTo1 (if 0 < (2 : ℚ) then ((2 : Nat) : ℚ) / 2 else 0) =
          roundTo1 (if 0 < (2 : ℚ) then ((2 : Nat) : ℚ) / 2 else 0)) := by
  have hlist : stream_response "m" 2
      [NetItem.line (SSELine.chunk "a"), NetItem.line (SSELine.chunk "b")] =
      [Ev.start "m", Ev.token "a", Ev.token "b",
        Ev.done "m" 2 (roundTo1 (if 0 < (2 : ℚ) then ((2 : Nat) : ℚ) / 2 else 0))] := rfl
  have hmem : Ev.done "m" 2 (roundTo1 (if 0 < (2 : ℚ) then ((2 : Nat) : ℚ) / 2 else 0)) ∈
      stream_response "m" 2
        [NetItem.line (SSELine.chunk "a"), NetItem.line (SSELine.chunk "b")] := by
    rw [hlist]
    simp
  exact ⟨hmem,
    done_token_accounting "m" 2
      [NetItem.line (SSELine.chunk "a"), NetItem.line (SSELine.chunk "b")] "m" 2 _ hmem⟩

/-- C5 (counterexample to the claim as stated): one token received over an
elapsed time of 3 seconds.  The emitted `done` carries
`tokens_per_second = 0.3` (the rounded value), which differs from
`total_tokens / elapsed = 1/3`. -/
theorem done_tps_rounded_counterexample :
    stream_response "m" 3 [NetItem.line (SSELine.chunk "hi")] =
      [Ev.start "m", Ev.token "hi", Ev.done "m" 1 (3 / 10)] ∧
    (3 : ℚ) / 10 ≠ (1 : ℚ) / 3 := by
  constructor
  · have hlist : stream_response "m" 3 [NetItem.line (SSELine.chunk "hi")] =
        [Ev.start "m", Ev.token "hi",
          Ev.done "m" 1 (roundTo1 (if 0 < (3 : ℚ) then ((1 : Nat) : ℚ) / 3 else 0))] := rfl
    rw [hlist]
    norm_num [roundTo1]
  · norm_num

/-! ## Chat history construction (`chat`, main.py lines 356-372;
`Database.get_messages`, database.py lines 230-251) -/

/-- One stored chat message (role and content fields used by `chat`). -/
structure ChatMsg where
  role : String
  content : String
  deriving DecidableEq, Repr

/-- The fixed default assistant persona (main.py line 368). -/
def defaultPersona : String :=
  "You are a helpful, concise AI assistant running locally on the user's machine via Fractionate Edge. You help with questions, document analysis, and general tasks."

/-- `Database.get_messages` (database.py lines 230-251):
`SELECT ... WHERE conversation_id = ? ORDER BY created_at ASC LIMIT ?`.
On the conversation's chronologically ordered message list (oldest first)
this returns the **first** `limit` messages. -/
def get_messages (msgs : List ChatMsg) (limit : Nat) : List ChatMsg := msgs.take limit

/-- Message building of `chat` (main.py lines 356-372): the user message is
saved first (appended to the conversation), then the history is loaded with
`limit=20`, and the system entry (caller-supplied prompt or the default
persona) is prepended. -/
def buildChatMessages (prior : List ChatMsg) (userMessage : String)
    (systemPrompt : Option String) : List ChatMsg :=
  let stored := prior ++ [⟨"user", userMessage⟩]
  let history := get_messages stored 20
  let sysEntry : ChatMsg :=
    match systemPrompt with
    | some s => ⟨"system", s⟩
    | none => ⟨"system", defaultPersona⟩
  sysEntry :: history

set_option maxRecDepth 10000 in
/-- C8 (evaluation at the failing input): for a conversation holding 21
prior messages, the completion request is built from the **oldest** 20
messages — `get_messages` orders ascending and then limits — so the window
is `take 20`, the just-saved user message "NEW" is absent from the request,
and the result differs from the most-recent-20 window the claim describes
(`drop 2` of the 22 stored messages). -/
theorem chat_history_window_oldest :
    buildChatMessages ((List.range 21).map fun i => ⟨"user", toString i⟩) "NEW" none =
      (⟨"system", defaultPersona⟩ : ChatMsg) ::
        ((List.range 21).map fun i => (⟨"user", toString i⟩ : ChatMsg)).take 20 ∧
    (⟨"user", "NEW"⟩ : ChatMsg) ∉
      buildChatMessages ((List.range 21).map fun i => ⟨"user", toString i⟩) "NEW" none ∧
    buildChatMessages ((List.range 21).map fun i => ⟨"user", toString i⟩) "NEW" none ≠
      (⟨"system", defaultPersona⟩ : ChatMsg) ::
        (((List.range 21).map fun i => (⟨"user", toString i⟩ : ChatMsg)) ++
          ([⟨"user", "NEW"⟩] : List ChatMsg)).drop 2 := by
  refine ⟨?_, ?_, ?_⟩ <;> decide

/-! ## Process supervisor (`LlamaServerManager`, models.py lines 21-147)

The subprocess handle is modelled as a snapshot of `Popen`: its pid and the
result `poll()` would report (`none` while alive, the exit code once
exited).  Wall-clock time appears only as the `_start_time` field and the
`now` argument of status reads.  The readiness loop's interaction with the
OS and the health endpoint is a function from iteration index to what that
iteration observes; the 120 s deadline with a 0.5 s sleep per iteration is
a poll budget (`fuel`). -/

namespace Llama

/-- Snapshot of a `subprocess.Popen` handle: `poll` is `none` while the
child is alive and carries the exit code once it has exited. -/
structure ProcHandle where
  pid : Int
  poll : Option Int
  deriving DecidableEq, Repr

/-- Mutable lifecycle state of `LlamaServerManager`: the `process` handle
and the `_start_time` timestamp. -/
structure LlamaState where
  process : Option ProcHandle
  startTime : Option ℚ
  deriving DecidableEq, Repr

/-- `is_running` property (models.py lines 88-90):
`process is not None and process.poll() is None`. -/
def is_running (st : LlamaState) : Bool :=
  match st.process with
  | none => false
  | some p => p.poll.isNone

/-- `pid` property (models.py lines 92-96): the child's pid when running,
else `None`. -/
def pidOf (st : LlamaState) : Option Int :=
  match st.process with
  | none => none
  | some p => if p.poll.isNone then some p.pid else none

/-- `uptime_seconds` property (models.py lines 98-102). -/
def uptimeSeconds (st : LlamaState) (now : ℚ) : Option ℚ :=
  if is_running st then st.startTime.map (fun t0 => now - t0) else none

/-- The status dict of `get_status` (models.py lines 139-147). -/
structure LlamaStatus where
  installed : Bool
  running : Bool
  pid : Option Int
  uptime_seconds : Option ℚ
  deriving DecidableEq, Repr

/-- `get_status` (models.py lines 139-147). -/
def get_status (st : LlamaState) (binaryOk modelOk : Bool) (now : ℚ) : LlamaStatus :=
  ⟨binaryOk && modelOk, is_running st, pidOf st, uptimeSeconds st now⟩

/-- What one iteration of the readiness loop observes (models.py lines
123-136): the child has exited (with its exit code and captured stderr),
the health endpoint answered 200, or the health request failed
(`ConnectError`) / answered non-200 — both of which fall through to the
0.5 s sleep and the next iteration. -/
inductive PollObs
  | exited (code : Int) (stderrText : String)
  | healthOk
  | healthErr
  deriving DecidableEq, Repr

/-- Outcome of the readiness polling loop. -/
inductive ReadyResult
  | ready (iter : Nat)
  | crashed (iter : Nat) (code : Int) (stderrText : String)
  | timedOut
  deriving DecidableEq, Repr

/-- The `while time.time() < deadline` loop of `_wait_for_ready`
(models.py lines 119-137): each iteration first checks `process.poll()`,
failing immediately with the captured stderr if the child exited, then
tries the health endpoint, returning on 200 and sleeping otherwise.
`fuel` is the number of iterations the 120 s deadline allows. -/
def pollLoop (obs : Nat → PollObs) : Nat → Nat → ReadyResult
  | 0, _ => ReadyResult.timedOut
  | fuel + 1, i =>
    match obs i with
    | PollObs.exited c s => ReadyResult.crashed i c s
    | PollObs.healthOk => ReadyResult.ready i
    | PollObs.healthErr => pollLoop obs fuel (i + 1)

/-- Python string slicing `s[:500]` by code points. -/
def takeChars (s : String) (n : Nat) : String := String.mk (s.data.take n)

/-- The `RuntimeError` message of `_wait_for_ready` (models.py lines
127-129): exit code plus the first 500 characters of captured stderr. -/
def crashMsg (c : Int) (stderrText : String) : String :=
  "llama-server exited with code " ++ toString c ++ ": " ++ takeChars stderrText 500

/-- The `TimeoutError` message of `_wait_for_ready` (models.py line 137),
for the default 120 s timeout. -/
def readyTimeoutMsg : String := "llama-server failed to start within 120s"

/-- The exceptions `start` can raise, separated by Python exception type:
`FileNotFoundError` for missing artifacts, `RuntimeError` for a crash
during startup, `TimeoutError` for the readiness deadline, and a
propagated `subprocess.TimeoutExpired` if the cleanup `stop()` cannot kill
the child. -/
inductive StartErr
  | fileNotFound (msg : String)
  | runtimeErr (msg : String)
  | timeoutErr (msg : String)
  | stopTimeout (msg : String)
  deriving DecidableEq, Repr

/-- How the child reacts to `stop()` (models.py lines 76-82): it
terminates within the 10 s grace period, needs `kill()` but dies within
the further 5 s wait, or survives even that (making the second `wait`
raise `subprocess.TimeoutExpired`). -/
inductive StopBehavior
  | graceful
  | killNeeded
  | unkillable
  deriving DecidableEq, Repr

/-- `stop` (models.py lines 68-86): no-op when no process handle is held;
otherwise terminate, wait up to 10 s, escalate to kill with up to 5 s
more, and clear `process` and `_start_time`.  If the child survives the
kill wait, the `TimeoutExpired` of the second `wait` propagates and the
state is left uncleared. -/
def stop (st : LlamaState) (b : StopBehavior) : Except String LlamaState :=
  match st.process with
  | none => Except.ok st
  | some _ =>
    match b with
    | StopBehavior.graceful => Except.ok ⟨none, none⟩
    | StopBehavior.killNeeded => Except.ok ⟨none, none⟩
    | StopBehavior.unkillable => Except.error "TimeoutExpired"

/-- `start` (models.py lines 31-66): no-op when already running; check the
binary and model artifacts; spawn the child and poll for readiness.  On a
crash during polling the `RuntimeError` propagates with the process handle
still set (only a `TimeoutError` triggers the cleanup `stop()`). -/
def start (st : LlamaState) (binaryOk modelOk : Bool) (childPid : Int)
    (obs : Nat → PollObs) (fuel : Nat) (now : ℚ) (b : StopBehavior) :
    Except StartErr Unit × LlamaState :=
  if is_running st then (Except.ok (), st)
  else if !binaryOk then (Except.error (StartErr.fileNotFound "llama-server binary not found"), st)
  else if !modelOk then (Except.error (StartErr.fileNotFound "Model file not found"), st)
  else
    match pollLoop obs fuel 0 with
    | ReadyResult.ready _ =>
        (Except.ok (), ⟨some ⟨childPid, none⟩, some now⟩)
    | ReadyResult.crashed _ c s =>
        (Except.error (StartErr.runtimeErr (crashMsg c s)), ⟨some ⟨childPid, some c⟩, some now⟩)
    | ReadyResult.timedOut =>
        match stop ⟨some ⟨childPid, none⟩, some now⟩ b with
        | Except.ok st2 => (Except.error (StartErr.timeoutErr readyTimeoutMsg), st2)
        | Except.error e => (Except.error (StartErr.stopTimeout e), ⟨some ⟨childPid, none⟩, some now⟩)

/-- What the 5 s-bounded health request can produce, per the httpx error
taxonomy: a response with some status code, a connection-establishment
failure (`httpx.ConnectError`), a timeout (`httpx.TimeoutException`), or
another transport error that is neither of those (`httpx.ReadError`,
`httpx.RemoteProtocolError`, ...). -/
inductive TransportOutcome
  | response (status : Nat)
  | connectFailure
  | timeoutFailure
  | otherFailure (msg : String)
  deriving DecidableEq, Repr

/-- `health_check` (models.py lines 104-113): `False` when not running;
otherwise issue the request and return `status == 200`; the except clause
catches exactly `httpx.ConnectError` and `httpx.TimeoutException`
(returning `False`); any other transport exception propagates. -/
def health_check (st : LlamaState) (t : TransportOutcome) : Except String Bool :=
  if is_running st then
    match t with
    | TransportOutcome.response s => Except.ok (s == 200)
    | TransportOutcome.connectFailure => Except.ok false
    | TransportOutcome.timeoutFailure => Except.ok false
    | TransportOutcome.otherFailure m => Except.error m
  else Except.ok false

end Llama

/-- If the first `k` poll iterations observe only health failures and the
`k`-th observes the child exited, the loop reports the crash at iteration
`k`, for any budget larger than `k`. -/
theorem pollLoop_crashed_of (obs : Nat → Llama.PollObs) (c : Int) (s : String)
    (k : Nat) :
    ∀ (i fuel : Nat), (∀ j, j < k → obs (i + j) = Llama.PollObs.healthErr) →
      obs (i + k) = Llama.PollObs.exited c s → k < fuel →
      Llama.pollLoop obs fuel i = Llama.ReadyResult.crashed (i + k) c s := by
  induction k with
  | zero =>
    intro i fuel _ hk hf
    cases fuel with
    | zero => omega
    | succ f =>
      have hk2 : obs i = Llama.PollObs.exited c s := by simpa using hk
      simp [Llama.pollLoop, hk2]
  | succ k ih =>
    intro i fuel h0 hk hf
    cases fuel with
    | zero => omega
    | succ f =>
      have hi : obs i = Llama.PollObs.healthErr := by
        have := h0 0 (by omega)
        simpa using this
      have hstep := ih (i + 1) f
        (fun j hj => by
          have := h0 (j + 1) (by omega)
          rw [show i + (j + 1) = i + 1 + j by omega] at this
          exact this)
        (by rw [show i + 1 + k = i + (k + 1) by omega]; exact hk)
        (by omega)
      rw [show i + 1 + k = i + (k + 1) by omega] at hstep
      simpa [Llama.pollLoop, hi] using hstep

/-- The stderr excerpt in a crash message is at most 500 characters. -/
theorem takeChars_length_le (s : String) (n : Nat) : (Llama.takeChars s n).length ≤ n := by
  show (s.data.take n).length ≤ n
  rw [List.length_take]
  exact min_le_left _ _

/-- The stderr excerpt is non-empty whenever the captured stderr is. -/
theorem takeChars_ne_empty (s : String) (n : Nat) (hs : s ≠ "") (hn : n ≠ 0) :
    Llama.takeChars s n ≠ "" := by
  obtain ⟨l⟩ := s
  intro h
  have hl : l.take n = [] := congrArg String.data h
  rcases List.take_eq_nil_iff.mp hl with h1 | h1
  · exact hn (by simpa using h1)
  · exact hs (by rw [h1])

/-- C4: if the child exits at poll iteration `k` (earlier iterations seeing
only health failures), `start()` fails right there — at iteration `k`, for
every poll budget larger than `k`, with a `RuntimeError` rather than the
timeout error — and the error message carries the first 500 characters of
the captured stderr (non-empty when stderr is non-empty); afterwards
`is_running` and `get_status().running` report not-running. -/
theorem start_crash_fails_fast
    (st : Llama.LlamaState) (childPid : Int) (obs : Nat → Llama.PollObs)
    (fuel : Nat) (now : ℚ) (b : Llama.StopBehavior)
    (k : Nat) (c : Int) (stderrText : String)
    (hrun : Llama.is_running st = false)
    (hpre : ∀ j, j < k → obs j = Llama.PollObs.healthErr)
    (hcrash : obs k = Llama.PollObs.exited c stderrText)
    (hfuel : k < fuel)
    (hne : stderrText ≠ "") :
    (Llama.start st true true childPid obs fuel now b).1 =
        Except.error (Llama.StartErr.runtimeErr (Llama.crashMsg c stderrText)) ∧
    Llama.pollLoop obs fuel 0 = Llama.ReadyResult.crashed k c stderrText ∧
    Llama.StartErr.runtimeErr (Llama.crashMsg c stderrText) ≠
        Llama.StartErr.timeoutErr Llama.readyTimeoutMsg ∧
    (∃ pre, Llama.crashMsg c stderrText = pre ++ Llama.takeChars stderrText 500) ∧
    Llama.takeChars stderrText 500 ≠ "" ∧
    (Llama.takeChars stderrText 500).length ≤ 500 ∧
    Llama.is_running (Llama.start st true true childPid obs fuel now b).2 = false ∧
    (Llama.get_status (Llama.start st true true childPid obs fuel now b).2 true true now).running
      = false := by
  have hpoll : Llama.pollLoop obs fuel 0 = Llama.ReadyResult.crashed k c stderrText := by
    have := pollLoop_crashed_of obs c stderrText k 0 fuel
      (fun j hj => by simpa using hpre j hj) (by simpa using hcrash) hfuel
    simpa using this
  have hr : Llama.start st true true childPid obs fuel now b =
      (Except.error (Llama.StartErr.runtimeErr (Llama.crashMsg c stderrText)),
        ⟨some ⟨childPid, some c⟩, some now⟩) := by
    simp [Llama.start, hrun, hpoll]
  refine ⟨by rw [hr], hpoll, fun h => Llama.StartErr.noConfusion h,
    ⟨"llama-server exited with code " ++ toString c ++ ": ", rfl⟩,
    takeChars_ne_empty stderrText 500 hne (by omega),
    takeChars_length_le stderrText 500, ?_, ?_⟩
  · rw [hr]
    rfl
  · rw [hr]
    rfl

/-- Fixed observation sequence of a child that crashes on the very first
poll iteration with stderr "boom". -/
def crashObs : Nat → Llama.PollObs := fun i =>
  if i = 0 then Llama.PollObs.exited 1 "boom" else Llama.PollObs.healthErr

/-- Witness for the C4 theorem: fresh manager, crash at iteration 0,
budget 240 (the full 120 s deadline at 0.5 s per poll). -/
theorem start_crash_fails_fast_witness :
    (crashObs 0 = Llama.PollObs.exited 1 "boom" ∧ "boom" ≠ "" ∧ (0 : Nat) < 240) ∧
    (Llama.start ⟨none, none⟩ true true 7 crashObs 240 0 Llama.StopBehavior.graceful).1 =
        Except.error (Llama.StartErr.runtimeErr (Llama.crashMsg 1 "boom")) ∧
    Llama.is_running
        (Llama.start ⟨none, none⟩ true true 7 crashObs 240 0 Llama.StopBehavior.graceful).2
      = false := by
  have h := start_crash_fails_fast ⟨none, none⟩ 7 crashObs 240 0
    Llama.StopBehavior.graceful 0 1 "boom" rfl
    (fun j hj => absurd hj (Nat.not_lt_zero j)) rfl (by omega) (by decide)
  exact ⟨⟨rfl, by decide, by omega⟩, h.1, h.2.2.2.2.2.2.1⟩

/-- C7: `stop()` is a strict no-op when no process handle is held; on both
completion paths (graceful termination, or kill after the 10 s grace
period) it clears the process handle and the start timestamp; completed
stops are idempotent; and when the engine is not running, a completed stop
changes neither the running flag nor the reported pid. -/
theorem stop_idempotent_clears (st : Llama.LlamaState) (b : Llama.StopBehavior) :
    (st.process = none → Llama.stop st b = Except.ok st) ∧
    (∀ p, st.process = some p → b ≠ Llama.StopBehavior.unkillable →
      Llama.stop st b = Except.ok ⟨none, none⟩) ∧
    (∀ st2 b2, Llama.stop st b = Except.ok st2 → Llama.stop st2 b2 = Except.ok st2) ∧
    (∀ st2, Llama.is_running st = false → Llama.stop st b = Except.ok st2 →
      Llama.is_running st2 = false ∧ Llama.pidOf st2 = Llama.pidOf st) := by
  obtain ⟨proc, t0⟩ := st
  refine ⟨?_, ?_, ?_, ?_⟩
  · intro h
    subst h
    rfl
  · intro p hp hb
    subst hp
    cases b with
    | graceful => rfl
    | killNeeded => rfl
    | unkillable => exact absurd rfl hb
  · intro st2 b2 h
    cases proc with
    | none =>
      obtain rfl : st2 = ⟨none, t0⟩ := by simpa [Llama.stop] using h.symm
      rfl
    | some p =>
      cases b with
      | graceful =>
        obtain rfl : st2 = ⟨none, none⟩ := by simpa [Llama.stop] using h.symm
        rfl
      | killNeeded =>
        obtain rfl : st2 = ⟨none, none⟩ := by simpa [Llama.stop] using h.symm
        rfl
      | unkillable => exact absurd h (by simp [Llama.stop])
  · intro st2 hrun h
    cases proc with
    | none =>
      obtain rfl : st2 = ⟨none, t0⟩ := by simpa [Llama.stop] using h.symm
      exact ⟨rfl, rfl⟩
    | some p =>
      have hpoll : p.poll.isNone = false := by simpa [Llama.is_running] using hrun
      cases b with
      | graceful =>
        obtain rfl : st2 = ⟨none, none⟩ := by simpa [Llama.stop] using h.symm
        exact ⟨rfl, by simp [Llama.pidOf, hpoll]⟩
      | killNeeded =>
        obtain rfl : st2 = ⟨none, none⟩ := by simpa [Llama.stop] using h.symm
        exact ⟨rfl, by simp [Llama.pidOf, hpoll]⟩
      | unkillable => exact absurd h (by simp [Llama.stop])

/-- Witness for the C7 theorem: stopping a live process clears the state;
stopping again is a no-op. -/
theorem stop_idempotent_clears_witness :
    Llama.stop ⟨some ⟨7, none⟩, some 0⟩ Llama.StopBehavior.graceful = Except.ok ⟨none, none⟩ ∧
    Llama.stop ⟨none, none⟩ Llama.StopBehavior.graceful = Except.ok ⟨none, none⟩ := by
  refine ⟨?_, ?_⟩
  · exact (stop_idempotent_clears ⟨some ⟨7, none⟩, some 0⟩ Llama.StopBehavior.graceful).2.1
      ⟨7, none⟩ rfl (by decide)
  · exact (stop_idempotent_clears ⟨none, none⟩ Llama.StopBehavior.graceful).1 rfl

/-- C9 (counterexample to the claim as stated): a transport error that is
neither a connection failure nor a timeout — e.g. `httpx.ReadError` when
the peer resets mid-response — is not caught by the except clause of
`health_check`, so the call raises instead of resolving to a boolean. -/
theorem health_check_raises_counterexample :
    Llama.health_check ⟨some ⟨7, none⟩, some 0⟩
        (Llama.TransportOutcome.otherFailure "peer closed connection") =
      Except.error "peer closed connection" ∧
    (Except.error "peer closed connection" : Except String Bool) ≠ Except.ok false ∧
    (Except.error "peer closed connection" : Except String Bool) ≠ Except.ok true := by
  exact ⟨rfl, fun h => Except.noConfusion h, fun h => Except.noConfusion h⟩

/-- C9 (amended): `health_check` resolves to a boolean — `false` when the
process is not running, `false` on connection failure or timeout of the
bounded health request, `status == 200` on a response — for every
transport outcome other than a transport error outside
`(httpx.ConnectError, httpx.TimeoutException)`, which propagates. -/
theorem health_check_boolean (st : Llama.LlamaState) (t : Llama.TransportOutcome)
    (hnot : ∀ m, t ≠ Llama.TransportOutcome.otherFailure m) :
    ∃ b : Bool, Llama.health_check st t = Except.ok b ∧
      (Llama.is_running st = false → b = false) ∧
      (t = Llama.TransportOutcome.connectFailure ∨ t = Llama.TransportOutcome.timeoutFailure →
        b = false) ∧
      (∀ s, Llama.is_running st = true → t = Llama.TransportOutcome.response s →
        b = (s == 200)) := by
  by_cases hrun : Llama.is_running st
  · cases t with
    | response s =>
      refine ⟨s == 200, ?_, ?_, ?_, ?_⟩
      · simp [Llama.health_check, hrun]
      · intro h
        rw [hrun] at h
        exact absurd h (by simp)
      · rintro (h | h) <;> exact absurd h (by simp)
      · intro s2 _ h
        injection h with h2
        rw [h2]
    | connectFailure =>
      refine ⟨false, by simp [Llama.health_check, hrun], fun _ => rfl, fun _ => rfl, ?_⟩
      intro s2 _ h
      exact Llama.TransportOutcome.noConfusion h
    | timeoutFailure =>
      refine ⟨false, by simp [Llama.health_check, hrun], fun _ => rfl, fun _ => rfl, ?_⟩
      intro s2 _ h
      exact Llama.TransportOutcome.noConfusion h
    | otherFailure m => exact absurd rfl (hnot m)
  · refine ⟨false, ?_, fun _ => rfl, fun _ => rfl, ?_⟩
    · simp [Llama.health_check, hrun]
    · intro s2 h2 h3
      rw [h2] at hrun
      exact absurd rfl hrun

/-- Witness for the amended C9 theorem: connection failure against a
stopped manager resolves to `ok false`. -/
theorem health_check_boolean_witness :
    (∀ m, Llama.TransportOutcome.connectFailure ≠ Llama.TransportOutcome.otherFailure m) ∧
    ∃ b : Bool, Llama.health_check ⟨none, none⟩ Llama.TransportOutcome.connectFailure =
        Except.ok b ∧
      (Llama.is_running ⟨none, none⟩ = false → b = false) ∧
      (Llama.TransportOutcome.connectFailure = Llama.TransportOutcome.connectFailure ∨
          Llama.TransportOutcome.connectFailure = Llama.TransportOutcome.timeoutFailure →
        b = false) ∧
      (∀ s, Llama.is_running ⟨none, none⟩ = true →
        Llama.TransportOutcome.connectFailure = Llama.TransportOutcome.response s →
        b = (s == 200)) :=
  ⟨fun _ h => Llama.TransportOutcome.noConfusion h,
    health_check_boolean ⟨none, none⟩ Llama.TransportOutcome.connectFailure
      (fun _ h => Llama.TransportOutcome.noConfusion h)⟩

/-! ## Document ingestion pipeline (`upload_document` and helpers,
main.py lines 462-636; `Database.get_cached_document` / `cache_document`,
database.py lines 255-299; `Florence2Manager`, models.py lines 150-244)

File contents are byte lists.  The external libraries are explicit
parameters of the pipeline: the content hash (`hashlib.sha256(...).
hexdigest()`), PyMuPDF text extraction (per-page text, or the exception a
corrupt PDF raises), the Florence-2 caption/OCR result per page after the
`_extract_caption_text` / `_extract_ocr_text` normalization, PIL image
decoding (the decoded width/height), python-docx paragraph extraction, and
strict UTF-8 decoding.  Timing fields of the response
(`processing_time_seconds`, the top-level `pages` convenience field) are
omitted.  The document ids produced by `uuid.uuid4()` are modelled as a
fresh-name counter. -/

/-- The `metadata` dict of each extraction path: `{"pages": n}`,
`{"width": w, "height": h}`, `{"paragraphs": n}`, or `{}`. -/
inductive DocMeta
  | pdfPages (pages : Nat)
  | imageDims (width height : Nat)
  | docxParagraphs (paragraphs : Nat)
  | emptyMeta
  deriving DecidableEq, Repr

/-- A row of the `document_cache` table (`CachedDocument`,
database.py lines 39-47), with `metadata` as the structured dict each
extraction path builds. -/
structure CachedDoc where
  id : String
  file_hash : String
  original_name : String
  extracted_text : String
  extraction_method : String
  metadata : DocMeta
  deriving DecidableEq, Repr

/-- The JSON body `upload_document` returns (minus timing fields). -/
structure DocResponse where
  document_id : String
  original_name : String
  extracted_text : String
  extraction_method : String
  metadata : DocMeta
  cached : Bool
  deriving DecidableEq, Repr

/-- Outcome of one `POST /api/documents` call: a 200 body, an
`HTTPException(400)` (unsupported type), or an `HTTPException(500)`
(processing failure). -/
inductive UploadResult
  | ok (resp : DocResponse)
  | clientError (detail : String)
  | serverError (detail : String)
  deriving DecidableEq, Repr

/-- Backend state the pipeline touches: the `document_cache` rows and the
vision gate's `is_loaded` flag (`Florence2Manager`). -/
structure ServerState where
  cache : List CachedDoc
  florenceLoaded : Bool
  deriving DecidableEq, Repr

/-- The external collaborators of the pipeline, as functions of the raw
file bytes.  `vision` is `florence.process_image` on page `i` of the
rendered document (index 0 for a plain image upload), already normalized
to the (caption, ocr) string pair; `Except.error` models the exception the
corresponding library call raises. -/
structure IngestEnv where
  hashFn : List Nat → String
  pdfPages : List Nat → Except String (List String)
  vision : List Nat → Nat → Except String (String × String)
  imageDims : List Nat → Except String (Nat × Nat)
  docxParas : List Nat → Except String (List String)
  utf8Decode : List Nat → Option String

/-- `Database.get_cached_document` (database.py lines 255-271):
`SELECT * FROM document_cache WHERE file_hash = ?` — `file_hash` is UNIQUE,
so the first match is the row. -/
def findDoc (cache : List CachedDoc) (h : String) : Option CachedDoc :=
  cache.find? (fun d => d.file_hash == h)

/-- Fresh document id (`uuid.uuid4()` in `Database.cache_document`). -/
def newDocId (st : ServerState) : String := "doc-" ++ toString st.cache.length

/-- The characters after the last dot of the list, or `none` when no dot
occurs (the `rsplit(".", 1)[-1]` / `"." in filename` pair). -/
def afterLastDot : List Char → Option (List Char)
  | [] => none
  | ch :: rest =>
    match afterLastDot rest with
    | some e => some e
    | none => if ch = '.' then some rest else none

/-- Extension extraction (main.py line 524):
`filename.rsplit(".", 1)[-1].lower() if "." in filename else ""`. -/
def fileExt (filename : String) : String :=
  match afterLastDot filename.data with
  | some e => String.mk (e.map Char.toLower)
  | none => ""

/-- A PyMuPDF `fitz.Document`: the per-page extracted text, and whether
`close()` has been called. -/
structure FitzDoc where
  pages : List String
  is_closed : Bool
  deriving DecidableEq, Repr

/-- `fitz.open(stream=..., filetype="pdf")` on a parseable PDF. -/
def fitzOpen (pages : List String) : FitzDoc := ⟨pages, false⟩

/-- `Document.close()`. -/
def fitzClose (d : FitzDoc) : FitzDoc := ⟨d.pages, true⟩

/-- `len(doc)`, i.e. `Document.page_count`: PyMuPDF raises
`ValueError("document closed")` when the document has been closed
(`if self.is_closed: raise ValueError("document closed")` guards the
property in both the classic and the rebased implementation). -/
def fitzLen (d : FitzDoc) : Except String Nat :=
  if d.is_closed then Except.error "document closed" else Except.ok d.pages.length

/-- `_is_scanned_pdf` (main.py lines 501-512): open the document, sum the
stripped per-page character counts, close the document, then compute
`total_chars / max(len(doc), 1)` — where `len(doc)` is evaluated on the
already-closed document — and compare against the 50 chars/page
threshold. -/
def is_scanned_pdf (pages : List String) : Except String Bool :=
  let doc := fitzOpen pages
  let totalChars : Nat := (doc.pages.map (fun p => p.trim.length)).sum
  let doc2 := fitzClose doc
  (fitzLen doc2).map (fun n =>
    decide (((totalChars : ℚ) / ((max n 1 : Nat) : ℚ)) < 50))

/-- Per-page text assembly of the scanned-PDF path (main.py lines
549-558): `"[Page N]\n"` plus a `Description:` line when the caption is
non-empty and a `Text:` line when the OCR text is non-empty. -/
def pageVisionText (i : Nat) (caption ocr : String) : String :=
  "[Page " ++ toString (i + 1) ++ "]\n" ++
    (if caption ≠ "" then "Description: " ++ caption ++ "\n" else "") ++
    (if ocr ≠ "" then "Text: " ++ ocr ++ "\n" else "")

/-- Run the vision engine over pages `0..n-1`, stopping at the first
exception (the `for` loop in main.py lines 549-558). -/
def visionAll (env : IngestEnv) (content : List Nat) (n : Nat) :
    Except String (List (String × String)) :=
  (List.range n).mapM (env.vision content)

/-- The image extensions of main.py line 567. -/
def imageExts : List String := ["jpg", "jpeg", "png", "tiff", "tif", "bmp", "webp"]

/-- Result of the `try` block of `upload_document` (main.py lines
543-603): extracted text, method and metadata on success, an
`HTTPException(400)` for an unsupported type, or the
`HTTPException(500, "Failed to process document: ...")` that the generic
except-branch raises for any library exception. -/
inductive ProcResult
  | ok (text method : String) (meta : DocMeta)
  | clientErr (detail : String)
  | serverErr (detail : String)
  deriving DecidableEq, Repr

/-- The extraction dispatch of `upload_document` (main.py lines 543-603):
`pdf` (scanned-vs-text heuristic, then vision or direct extraction), the
image extensions (decode, vision, compose `Description:`/`Text:` lines),
`docx` (non-empty paragraphs joined by blank lines), and the plain-text
fallback with the 400 error on undecodable bytes. -/
def processDoc (env : IngestEnv) (content : List Nat) (ext : String) : ProcResult :=
  if ext = "pdf" then
    match env.pdfPages content with
    | Except.error e => ProcResult.serverErr ("Failed to process document: " ++ e)
    | Except.ok pages =>
      match is_scanned_pdf pages with
      | Except.error e => ProcResult.serverErr ("Failed to process document: " ++ e)
      | Except.ok true =>
        match visionAll env content pages.length with
        | Except.error e => ProcResult.serverErr ("Failed to process document: " ++ e)
        | Except.ok results =>
          ProcResult.ok
            (String.intercalate "\n\n"
              (results.enum.map (fun p => pageVisionText p.1 p.2.1 p.2.2)))
            "florence2" (DocMeta.pdfPages pages.length)
      | Except.ok false =>
        let kept := pages.filter (fun p => p.trim ≠ "")
        ProcResult.ok (String.intercalate "\n\n---\n\n" kept) "text_pdf"
          (DocMeta.pdfPages kept.length)
  else if ext ∈ imageExts then
    match env.imageDims content with
    | Except.error e => ProcResult.serverErr ("Failed to process document: " ++ e)
    | Except.ok (w, h) =>
      match env.vision content 0 with
      | Except.error e => ProcResult.serverErr ("Failed to process document: " ++ e)
      | Except.ok (caption, ocr) =>
        let parts :=
          (if caption ≠ "" then ["Description: " ++ caption] else []) ++
            (if ocr ≠ "" then ["Text: " ++ ocr] else [])
        ProcResult.ok
          (if parts.isEmpty then "No text could be extracted from this image."
            else String.intercalate "\n" parts)
          "florence2" (DocMeta.imageDims w h)
  else if ext = "docx" then
    match env.docxParas content with
    | Except.error e => ProcResult.serverErr ("Failed to process document: " ++ e)
    | Except.ok paras =>
      let kept := paras.filter (fun p => p.trim ≠ "")
      ProcResult.ok (String.intercalate "\n\n" kept) "docx"
        (DocMeta.docxParagraphs kept.length)
  else
    match env.utf8Decode content with
    | some text => ProcResult.ok text "plaintext" DocMeta.emptyMeta
    | none => ProcResult.clientErr ("Unsupported file type: ." ++ ext)

/-- `upload_document` (main.py lines 515-636): hash the bytes, return the
cached row immediately on a hit; otherwise run the extraction dispatch
inside try/finally — the finally block unloads the vision gate whatever
the outcome — and on success insert the new row keyed by the content hash
and return it with `cached=false`. -/
def upload_document (env : IngestEnv) (st : ServerState) (filename : String)
    (content : List Nat) : UploadResult × ServerState :=
  let fileHash := env.hashFn content
  match findDoc st.cache fileHash with
  | some row =>
      (UploadResult.ok ⟨row.id, row.original_name, row.extracted_text,
        row.extraction_method, row.metadata, true⟩, st)
  | none =>
      match processDoc env content (fileExt filename) with
      | ProcResult.ok text method meta =>
          (UploadResult.ok ⟨newDocId st, filename, text, method, meta, false⟩,
            ⟨(⟨newDocId st, fileHash, filename, text, method, meta⟩ : CachedDoc) :: st.cache,
              false⟩)
      | ProcResult.clientErr d => (UploadResult.clientError d, ⟨st.cache, false⟩)
      | ProcResult.serverErr d => (UploadResult.serverError d, ⟨st.cache, false⟩)

/-- On a cache miss, a successful upload returns `cached=false` with the
request's filename, and the new state holds exactly the returned record
prepended to the cache, with the vision gate unloaded. -/
theorem upload_miss_ok (env : IngestEnv) (st : ServerState) (n : String) (c : List Nat)
    (r : DocResponse) (st1 : ServerState)
    (hmiss : findDoc st.cache (env.hashFn c) = none)
    (h : upload_document env st n c = (UploadResult.ok r, st1)) :
    r.cached = false ∧ r.original_name = n ∧ r.document_id = newDocId st ∧
    st1 = ⟨(⟨r.document_id, env.hashFn c, n, r.extracted_text, r.extraction_method,
      r.metadata⟩ : CachedDoc) :: st.cache, false⟩ := by
  cases hp : processDoc env c (fileExt n) with
  | ok text method meta =>
    simp only [upload_document, hmiss, hp] at h
    injection h with h1 h2
    injection h1 with h3
    subst h3
    subst h2
    exact ⟨rfl, rfl, rfl, rfl⟩
  | clientErr d =>
    simp only [upload_document, hmiss, hp] at h
    exact absurd h (by simp)
  | serverErr d =>
    simp only [upload_document, hmiss, hp] at h
    exact absurd h (by simp)

/-- C2: after a first successful upload of content `c` (a cache miss), a
second upload of the byte-identical content — under any filename, and with
the extraction collaborators replaced arbitrarily (same hash function) —
returns the first response with `cached=true` and leaves the state
untouched: no extraction is consulted.  For a second upload of content
hashing differently (also fresh), both uploads extract (`cached=false`)
and each record is afterwards retrievable by its own content hash. -/
theorem upload_content_dedup
    (env : IngestEnv) (st : ServerState) (c : List Nat) (n1 : String)
    (r1 : DocResponse) (st1 : ServerState)
    (hmiss : findDoc st.cache (env.hashFn c) = none)
    (h1 : upload_document env st n1 c = (UploadResult.ok r1, st1)) :
    r1.cached = false ∧
    (∀ (env2 : IngestEnv) (n2 : String), env2.hashFn = env.hashFn →
      upload_document env2 st1 n2 c = (UploadResult.ok { r1 with cached := true }, st1)) ∧
    (∀ (c2 : List Nat) (n3 : String) (r2 : DocResponse) (st2 : ServerState),
      env.hashFn c2 ≠ env.hashFn c →
      findDoc st.cache (env.hashFn c2) = none →
      upload_document env st1 n3 c2 = (UploadResult.ok r2, st2) →
      r2.cached = false ∧
      (findDoc st2.cache (env.hashFn c)).map (fun d => d.extracted_text) =
        some r1.extracted_text ∧
      (findDoc st2.cache (env.hashFn c2)).map (fun d => d.extracted_text) =
        some r2.extracted_text) := by
  obtain ⟨hc1, hn1, hid1, hst1⟩ := upload_miss_ok env st n1 c r1 st1 hmiss h1
  refine ⟨hc1, ?_, ?_⟩
  · intro env2 n2 henv
    have hhit : findDoc st1.cache (env2.hashFn c) =
        some ⟨r1.document_id, env.hashFn c, n1, r1.extracted_text,
          r1.extraction_method, r1.metadata⟩ := by
      rw [hst1, henv]
      simp [findDoc]
    simp only [upload_document, hhit]
    rw [← hn1]
  · intro c2 n3 r2 st2 hneq hmiss2 h2
    have hmiss2b : findDoc st1.cache (env.hashFn c2) = none := by
      rw [hst1]
      show List.find? _ (_ :: _) = none
      rw [List.find?_cons_of_neg _ (by simp [Ne.symm hneq])]
      exact hmiss2
    obtain ⟨hc2, hn3, hid2, hst2⟩ := upload_miss_ok env st1 n3 c2 r2 st2 hmiss2b h2
    refine ⟨hc2, ?_, ?_⟩
    · rw [hst2, hst1]
      show ((List.find? _ (_ :: _ :: _)).map _) = _
      rw [List.find?_cons_of_neg _ (by simp [hneq]),
        List.find?_cons_of_pos _ (by simp)]
      rfl
    · rw [hst2]
      show ((List.find? _ (_ :: _)).map _) = _
      rw [List.find?_cons_of_pos _ (by simp)]
      rfl

/-- C10: when a second upload of the same bytes hits the cache, the
response's `original_name` is the filename of the first upload — the
current request's filename is ignored — and the state (in particular the
cached record) is unchanged. -/
theorem upload_cache_hit_original_name
    (env : IngestEnv) (st : ServerState) (c : List Nat) (n1 n2 : String)
    (r1 r2 : DocResponse) (st1 st2 : ServerState)
    (hmiss : findDoc st.cache (env.hashFn c) = none)
    (h1 : upload_document env st n1 c = (UploadResult.ok r1, st1))
    (h2 : upload_document env st1 n2 c = (UploadResult.ok r2, st2)) :
    r2.original_name = n1 ∧ r2.cached = true ∧ st2 = st1 := by
  obtain ⟨hc1, hn1, hid1, hst1⟩ := upload_miss_ok env st n1 c r1 st1 hmiss h1
  have hhit : findDoc st1.cache (env.hashFn c) =
      some ⟨r1.document_id, env.hashFn c, n1, r1.extracted_text,
        r1.extraction_method, r1.metadata⟩ := by
    rw [hst1]
    simp [findDoc]
  simp only [upload_document, hhit] at h2
  injection h2 with hr hs
  injection hr with hresp
  subst hresp
  exact ⟨rfl, rfl, hs.symm⟩

/-- C3 (amended): every ingestion call that misses the cache leaves the
vision gate unloaded, whatever the extraction outcome; a cache hit returns
without touching the gate, so the flag stays false whenever it was false
on entry. -/
theorem upload_unloads_florence
    (env : IngestEnv) (st : ServerState) (filename : String) (c : List Nat) :
    (findDoc st.cache (env.hashFn c) = none →
      (upload_document env st filename c).2.florenceLoaded = false) ∧
    (st.florenceLoaded = false →
      (upload_document env st filename c).2.florenceLoaded = false) := by
  constructor
  · intro hmiss
    cases hp : processDoc env c (fileExt filename) with
    | ok text method meta => simp [upload_document, hmiss, hp]
    | clientErr d => simp [upload_document, hmiss, hp]
    | serverErr d => simp [upload_document, hmiss, hp]
  · intro hld
    cases hfind : findDoc st.cache (env.hashFn c) with
    | some row => simpa [upload_document, hfind] using hld
    | none =>
      cases hp : processDoc env c (fileExt filename) with
      | ok text method meta => simp [upload_document, hfind, hp]
      | clientErr d => simp [upload_document, hfind, hp]
      | serverErr d => simp [upload_document, hfind, hp]

/-- Concrete environment for witnesses: the hash is the printed byte list
(injective, standing in for the sha256 hexdigest), and only the plain-text
decoder knows the two demo contents. -/
def demoEnv : IngestEnv where
  hashFn := fun content => toString content
  pdfPages := fun _ => Except.error "demo"
  vision := fun _ _ => Except.error "demo"
  imageDims := fun _ => Except.error "demo"
  docxParas := fun _ => Except.error "demo"
  utf8Decode := fun content =>
    if content = [104, 105] then some "hi"
    else if content = [121, 111] then some "yo" else none

/-- The cache row the first demo upload (bytes "hi" as `a.txt`) creates. -/
def rowHi : CachedDoc := ⟨"doc-0", "[104, 105]", "a.txt", "hi", "plaintext", DocMeta.emptyMeta⟩

/-- The cache row the second demo upload (bytes "yo" as `b.txt`) creates. -/
def rowYo : CachedDoc := ⟨"doc-1", "[121, 111]", "b.txt", "yo", "plaintext", DocMeta.emptyMeta⟩

/-- Witness for the C2 theorem: upload "hi" as `a.txt`, re-upload the same
bytes as `b.pdf` (cache hit, same text, state unchanged), and upload "yo"
as `b.txt`; both records are then retrievable by their own hash. -/
theorem upload_content_dedup_witness :
    upload_document demoEnv ⟨[rowHi], false⟩ "b.pdf" [104, 105] =
      (UploadResult.ok ⟨"doc-0", "a.txt", "hi", "plaintext", DocMeta.emptyMeta, true⟩,
        ⟨[rowHi], false⟩) ∧
    (findDoc [rowYo, rowHi] "[104, 105]").map (fun d => d.extracted_text) = some "hi" ∧
    (findDoc [rowYo, rowHi] "[121, 111]").map (fun d => d.extracted_text) = some "yo" := by
  have h := upload_content_dedup demoEnv ⟨[], false⟩ [104, 105] "a.txt"
    ⟨"doc-0", "a.txt", "hi", "plaintext", DocMeta.emptyMeta, false⟩
    ⟨[rowHi], false⟩ rfl rfl
  have h2 := h.2.2 [121, 111] "b.txt"
    ⟨"doc-1", "b.txt", "yo", "plaintext", DocMeta.emptyMeta, false⟩
    ⟨[rowYo, rowHi], false⟩ (by decide) rfl rfl
  exact ⟨h.2.1 demoEnv "b.pdf" rfl, h2.2.1, h2.2.2⟩

/-- Witness for the C10 theorem: re-uploading the "hi" bytes as `c.png`
returns `original_name = "a.txt"` and leaves the state unchanged. -/
theorem upload_cache_hit_original_name_witness :
    upload_document demoEnv ⟨[rowHi], false⟩ "c.png" [104, 105] =
      (UploadResult.ok ⟨"doc-0", "a.txt", "hi", "plaintext", DocMeta.emptyMeta, true⟩,
        ⟨[rowHi], false⟩) ∧
    (⟨"doc-0", "a.txt", "hi", "plaintext", DocMeta.emptyMeta, true⟩ :
      DocResponse).original_name = "a.txt" :=
  ⟨rfl,
    (upload_cache_hit_original_name demoEnv ⟨[], false⟩ [104, 105] "a.txt" "c.png"
      ⟨"doc-0", "a.txt", "hi", "plaintext", DocMeta.emptyMeta, false⟩
      ⟨"doc-0", "a.txt", "hi", "plaintext", DocMeta.emptyMeta, true⟩
      ⟨[rowHi], false⟩ ⟨[rowHi], false⟩ rfl rfl rfl).1⟩

/-- Witness for the amended C3 theorem: a cache-missing upload with the
vision gate loaded on entry ends with the gate unloaded. -/
theorem upload_unloads_florence_witness :
    findDoc (⟨[], true⟩ : ServerState).cache (demoEnv.hashFn [104, 105]) = none ∧
    (upload_document demoEnv ⟨[], true⟩ "a.txt" [104, 105]).2.florenceLoaded = false :=
  ⟨rfl, (upload_unloads_florence demoEnv ⟨[], true⟩ "a.txt" [104, 105]).1 rfl⟩

/-- C3 (counterexample to the claim as stated): the cache-hit path returns
before the try/finally block (main.py lines 527-537), so an ingestion call
that hits the cache while the vision gate happens to be loaded returns
with the gate still loaded. -/
theorem florence_left_loaded_on_cache_hit :
    (upload_document demoEnv ⟨[rowHi], true⟩ "a.txt" [104, 105]).2.florenceLoaded = true ∧
    (upload_document demoEnv ⟨[rowHi], true⟩ "a.txt" [104, 105]).1 =
      UploadResult.ok ⟨"doc-0", "a.txt", "hi", "plaintext", DocMeta.emptyMeta, true⟩ :=
  ⟨rfl, rfl⟩

/-- Environment whose PDF parser succeeds with a single page of 100
extractable characters. -/
def pdfDemoEnv : IngestEnv :=
  { demoEnv with pdfPages := fun _ => Except.ok [String.mk (List.replicate 100 'a')] }

/-- C6 (evaluation at the failing input): `_is_scanned_pdf` closes the
PyMuPDF document before evaluating `len(doc)` (main.py lines 509-511), and
PyMuPDF raises `ValueError("document closed")` on any page-count access
after `close()` — so classification never happens: even a one-page PDF
with 100 extractable characters (which the claim says must take the
`text_pdf` path) makes the upload fail with the generic 500 error instead
of selecting either extraction method. -/
theorem upload_pdf_document_closed :
    is_scanned_pdf [String.mk (List.replicate 100 'a')] = Except.error "document closed" ∧
    upload_document pdfDemoEnv ⟨[], false⟩ "report.pdf" [1, 2, 3] =
      (UploadResult.serverError "Failed to process document: document closed",
        ⟨[], false⟩) :=
  ⟨rfl, rfl⟩

end EdgeAI
